import Mathlib

/-!
Verification of the local pseudo-authentication and encrypted-storage
subsystem of the Atonix internet-radio application, shallowly embedded in
Lean 4.

The embedding covers three source files:

* `src/app/core/services/jwt.service.ts`    (`JwtService`, the TokenIssuer)
* `src/app/core/services/crypto.service.ts` (`CryptoService`, the Hasher)
* `src/app/shared/utils/storage.util.ts`    (`StorageUtil`, the SecureStore)

Modelling conventions:

* JavaScript strings are modelled as Lean `String`s.  All strings the claims
  manipulate are ASCII, where the JS UTF-16 view and the Lean code-point view
  coincide.
* Fallible operations (code that can `throw`) are modelled with
  `Except Unit` / `Option`; a JS `try { ... } catch { ... }` becomes a match
  on that result.
* External-library primitives that are not part of this repository
  (`CryptoJS.HmacSHA256`, `CryptoJS.PBKDF2`, `CryptoJS.AES.encrypt/decrypt`,
  `JSON.parse`) are taken as explicit function parameters of the embedded
  operations; theorems assume only the contracts those libraries actually
  provide, stated at the instances used.  Everything else — including
  `JSON.stringify`, the crypto-js `Base64`/`Utf8` codecs used by
  `base64UrlDecode`, and all of the repository's own logic — is embedded
  concretely and executably.
* JS numbers appearing in the token helpers are modelled as `Option Int`,
  with `none` standing for `NaN`.
-/

namespace Atonix

/-! ## JavaScript string splitting

`str.split(sep)` for a single-character separator, as used by
`jwt.service.ts` (`token.split('.')`) and `crypto.service.ts`
(`hash.split('$')`). -/

/-- `String.prototype.split` with a single-character separator, on the
underlying character list.  `"".split(c)` is `[""]`, matching JS. -/
def jsSplitList (sep : Char) : List Char → List (List Char)
  | [] => [[]]
  | c :: cs =>
    match jsSplitList sep cs with
    | [] => [[]]
    | h :: t => if c = sep then [] :: h :: t else (c :: h) :: t

/-- `str.split(sep)` for a one-character separator `sep`. -/
def jsSplit (sep : Char) (s : String) : List String :=
  (jsSplitList sep s.data).map String.mk

theorem jsSplitList_ne_nil (sep : Char) (l : List Char) :
    jsSplitList sep l ≠ [] := by
  cases l with
  | nil => simp [jsSplitList]
  | cons c cs =>
    simp only [jsSplitList]
    cases h : jsSplitList sep cs with
    | nil => simp
    | cons h t =>
      by_cases hc : c = sep <;> simp [hc]

theorem jsSplitList_of_not_mem (sep : Char) (l : List Char)
    (h : sep ∉ l) : jsSplitList sep l = [l] := by
  induction l with
  | nil => rfl
  | cons c cs ih =>
    simp only [List.mem_cons, not_or] at h
    have hcs : ¬ c = sep := fun he => h.1 he.symm
    simp only [jsSplitList, ih h.2]
    simp [hcs]

theorem jsSplitList_append (sep : Char) (a b : List Char)
    (ha : sep ∉ a) : jsSplitList sep (a ++ sep :: b) = a :: jsSplitList sep b := by
  induction a with
  | nil =>
    simp only [List.nil_append, jsSplitList]
    cases h : jsSplitList sep b with
    | nil => exact absurd h (jsSplitList_ne_nil sep b)
    | cons x t => simp
  | cons c cs ih =>
    simp only [List.mem_cons, not_or] at ha
    have hcs : ¬ c = sep := fun he => ha.1 he.symm
    simp only [List.cons_append, jsSplitList, List.append_eq]
    rw [ih ha.2]
    simp [hcs]

/-! ## JavaScript integer printing

`JSON.stringify` renders the integers appearing in token payloads (`iat`,
`exp`) in plain decimal.  A fuel-based digit printer keeps the definition
kernel-reducible. -/

/-- The decimal digit character for `d < 10`. -/
def natDigitChar (d : Nat) : Char := Char.ofNat (48 + d)

/-- Decimal digits of `n`, most significant first; `fuel` bounds recursion
depth and any `fuel > 0` suffices once `fuel ≥ n`. -/
def natToDigitsAux : Nat → Nat → List Char
  | 0, _ => []
  | fuel + 1, n =>
    if n < 10 then [natDigitChar n]
    else natToDigitsAux fuel (n / 10) ++ [natDigitChar (n % 10)]

/-- Decimal rendering of a natural number. -/
def natToString (n : Nat) : String := ⟨natToDigitsAux (n + 1) n⟩

/-- Decimal rendering of an integer, as JS renders integral numbers. -/
def intToString : Int → String
  | .ofNat m => natToString m
  | .negSucc m => "-" ++ natToString (m + 1)

theorem natToDigitsAux_ne_nil (fuel n : Nat) :
    natToDigitsAux (fuel + 1) n ≠ [] := by
  simp only [natToDigitsAux]
  by_cases h : n < 10 <;> simp [h]

example : natToString 1700000000 = "1700000000" := by decide
example : intToString (-45) = "-45" := by decide

/-! ## The JSON data model

`Json` models the JSON-representable values handled by `JSON.stringify` /
`JSON.parse` in the source: nested objects (with insertion-ordered fields),
arrays, strings, integral numbers, booleans and null. -/

inductive Json where
  | null : Json
  | bool : Bool → Json
  | num : Int → Json
  | str : String → Json
  | arr : List Json → Json
  | obj : List (String × Json) → Json

/-- `JSON.stringify`'s escaping of a single character inside a string
literal: `"` and `\` get a backslash, control characters use the short
escapes `\b \t \n \f \r` or `\u00XX`, everything else is copied. -/
def escapeJsonChar (c : Char) : List Char :=
  if c = '"' then ['\\', '"']
  else if c = '\\' then ['\\', '\\']
  else if c = Char.ofNat 8 then ['\\', 'b']
  else if c = Char.ofNat 9 then ['\\', 't']
  else if c = Char.ofNat 10 then ['\\', 'n']
  else if c = Char.ofNat 12 then ['\\', 'f']
  else if c = Char.ofNat 13 then ['\\', 'r']
  else if c.toNat < 32 then
    ['\\', 'u', '0', '0', natDigitChar (c.toNat / 16), hexDigitChar (c.toNat % 16)]
  else [c]
where
  /-- Lower-case hex digit. -/
  hexDigitChar (d : Nat) : Char :=
    if d < 10 then Char.ofNat (48 + d) else Char.ofNat (87 + d)

/-- `JSON.stringify` of a string value. -/
def jsonStringifyString (s : String) : String :=
  ⟨'"' :: (s.data.flatMap escapeJsonChar ++ ['"'])⟩

mutual

/-- `JSON.stringify(v)` (no indent argument, hence no whitespace), with
object fields rendered in insertion order. -/
def jsonStringify : Json → String
  | .null => "null"
  | .bool true => "true"
  | .bool false => "false"
  | .num n => intToString n
  | .str s => jsonStringifyString s
  | .arr xs => "[" ++ jsonStringifyArr xs ++ "]"
  | .obj fs => "\x7b" ++ jsonStringifyObj fs ++ "\x7d"

/-- Comma-separated rendering of array elements. -/
def jsonStringifyArr : List Json → String
  | [] => ""
  | [x] => jsonStringify x
  | x :: y :: rest => jsonStringify x ++ "," ++ jsonStringifyArr (y :: rest)

/-- Comma-separated rendering of object fields. -/
def jsonStringifyObj : List (String × Json) → String
  | [] => ""
  | [(k, v)] => jsonStringifyString k ++ ":" ++ jsonStringify v
  | (k, v) :: f :: rest =>
    jsonStringifyString k ++ ":" ++ jsonStringify v ++ "," ++ jsonStringifyObj (f :: rest)

end

example :
    jsonStringify (.obj [("a", .arr [.num 1, .bool true, .null]), ("b", .str "x\"y")])
      = "\x7b\"a\":[1,true,null],\"b\":\"x\\\"y\"\x7d" := by decide

/-- `JSON.stringify` never produces the empty string (every `Json`
constructor renders with at least one character). -/
theorem jsonStringify_ne_empty (v : Json) : jsonStringify v ≠ "" := by
  cases v with
  | null => simp [jsonStringify]
  | bool b => cases b <;> simp [jsonStringify]
  | num n =>
    cases n with
    | ofNat m =>
      simp only [jsonStringify, intToString, natToString]
      intro h
      exact natToDigitsAux_ne_nil m m (congrArg String.data h)
    | negSucc m =>
      simp only [jsonStringify, intToString]
      intro h
      have := congrArg String.data h
      simp [String.data_append] at this
  | str s =>
    simp only [jsonStringify, jsonStringifyString]
    intro h
    have := congrArg String.data h
    simp at this
  | arr xs =>
    intro h
    have := congrArg String.data h
    simp [jsonStringify, String.data_append] at this
  | obj fs =>
    intro h
    have := congrArg String.data h
    simp [jsonStringify, String.data_append] at this

/-! ## crypto-js `enc.Base64.parse` and `enc.Utf8.stringify`

`JwtService.base64UrlDecode` calls
`CryptoJS.enc.Base64.parse(output).toString(CryptoJS.enc.Utf8)`.  Both sides
are embedded concretely so the decoder is executable.  crypto-js's parser is
lenient: characters outside the base64 alphabet look up `undefined` in its
reverse map, and JS bit operations coerce `undefined` to `0`. -/

/-- crypto-js's base64 reverse map: value of a base64 alphabet character,
`none` for anything else. -/
def base64CharValue (c : Char) : Option Nat :=
  let n := c.toNat
  if 65 ≤ n ∧ n ≤ 90 then some (n - 65)
  else if 97 ≤ n ∧ n ≤ 122 then some (n - 97 + 26)
  else if 48 ≤ n ∧ n ≤ 57 then some (n - 48 + 52)
  else if c = '+' then some 62
  else if c = '/' then some 63
  else none

/-- The byte crypto-js's `parseLoop` emits at input position `i` (only for
`i % 4 ≠ 0`), from the reverse-map values `vs`: out-of-map characters act as
value `0` (JS `undefined << k = 0`, `undefined >>> k = 0`).

The loop actually ORs `(vs[i-1] <<< shift ||| vs[i] >>> shift')` into a word
buffer without masking; the bits above bit 7 that spill into the neighbouring
byte slot always coincide with bits already stored there (they are the same
high bits of `vs[i]` consumed by the previous byte), and bits shifted past
bit 31 are dropped by JS's 32-bit shifts, so masking with `&&& 255` is
extensionally the loop's behaviour on every input. -/
def b64ByteAt (vs : Array Nat) (i : Nat) : Nat :=
  (((vs.getD (i - 1) 0) <<< ((i % 4) * 2)) ||| ((vs.getD i 0) >>> (6 - (i % 4) * 2))) &&& 255

/-- `CryptoJS.enc.Base64.parse` on a character list: truncate at the first
`'='` (the padding character), then run the parse loop. -/
def cryptoJsBase64Parse (cs : List Char) : List Nat :=
  let vs := ((cs.takeWhile (· ≠ '=')).map (fun c => (base64CharValue c).getD 0)).toArray
  (List.range vs.size).filterMap (fun i => if i % 4 ≠ 0 then some (b64ByteAt vs i) else none)

/-- `CryptoJS.enc.Utf8.stringify` (via `decodeURIComponent(escape(...))`):
strict UTF-8 decoding of a byte list, rejecting truncated or overlong
sequences, surrogate code points and values beyond U+10FFFF — the inputs on
which the original throws `URIError`/`Malformed UTF-8 data`. -/
def utf8DecodeBytes : List Nat → Except Unit (List Char)
  | [] => .ok []
  | b :: rest =>
    if b < 128 then
      (utf8DecodeBytes rest).map (Char.ofNat b :: ·)
    else if b < 192 then .error ()
    else if b < 224 then
      match rest with
      | b1 :: rest1 =>
        if 128 ≤ b1 ∧ b1 < 192 then
          let cp := (b - 192) * 64 + (b1 - 128)
          if cp < 128 then .error ()
          else (utf8DecodeBytes rest1).map (Char.ofNat cp :: ·)
        else .error ()
      | [] => .error ()
    else if b < 240 then
      match rest with
      | b1 :: b2 :: rest2 =>
        if (128 ≤ b1 ∧ b1 < 192) ∧ (128 ≤ b2 ∧ b2 < 192) then
          let cp := (b - 224) * 4096 + (b1 - 128) * 64 + (b2 - 128)
          if cp < 2048 ∨ (55296 ≤ cp ∧ cp ≤ 57343) then .error ()
          else (utf8DecodeBytes rest2).map (Char.ofNat cp :: ·)
        else .error ()
      | _ => .error ()
    else if b < 248 then
      match rest with
      | b1 :: b2 :: b3 :: rest3 =>
        if (128 ≤ b1 ∧ b1 < 192) ∧ (128 ≤ b2 ∧ b2 < 192) ∧ (128 ≤ b3 ∧ b3 < 192) then
          let cp := (b - 240) * 262144 + (b1 - 128) * 4096 + (b2 - 128) * 64 + (b3 - 128)
          if cp < 65536 ∨ 1114111 < cp then .error ()
          else (utf8DecodeBytes rest3).map (Char.ofNat cp :: ·)
        else .error ()
      | _ => .error ()
    else .error ()

/-! ## `JwtService` (`src/app/core/services/jwt.service.ts`)

`CryptoJS.HmacSHA256(msg, secret).toString(CryptoJS.enc.Base64)` is the one
external primitive left abstract; it is passed to each operation as
`hmacB64 : String → String → String` (message, secret ↦ base64-rendered
MAC).  `JSON.parse` is likewise passed as `jsonParse : String → Option Json`
(`none` models a parse exception). -/

/-- `JwtService.JWT_SECRET`. -/
def JWT_SECRET : String := "radio-app-secret-key-change-in-production-2024"

/-- `JwtService.TOKEN_EXPIRY_DAYS`. -/
def TOKEN_EXPIRY_DAYS : Int := 7

/-- Per-character action of `JwtService.base64UrlEncode`: it only rewrites
`'+' → '-'`, `'/' → '_'` and drops `'='`; it performs no base64 encoding of
its input. -/
def base64UrlEncodeChar (c : Char) : Option Char :=
  if c = '+' then some '-'
  else if c = '/' then some '_'
  else if c = '=' then none
  else some c

/-- `JwtService.base64UrlEncode` (three regex replaces). -/
def base64UrlEncode (s : String) : String :=
  ⟨s.data.filterMap base64UrlEncodeChar⟩

/-- `JwtService.base64UrlDecode`: undo the URL-safe replacements, re-pad
(an input length `≡ 1 (mod 4)` throws `Invalid base64 string`), then
`Base64.parse` and `Utf8.stringify`. -/
def base64UrlDecode (s : String) : Except Unit String :=
  let output := s.data.map (fun c => if c = '-' then '+' else if c = '_' then '/' else c)
  let padded : Except Unit (List Char) :=
    match output.length % 4 with
    | 0 => .ok output
    | 2 => .ok (output ++ ['=', '='])
    | 3 => .ok (output ++ ['='])
    | _ => .error ()
  match padded with
  | .error _ => .error ()
  | .ok cs => (utf8DecodeBytes (cryptoJsBase64Parse cs)).map String.mk

/-- The literal `{ alg: 'HS256', typ: 'JWT' }` header object. -/
def headerJson : Json := .obj [("alg", .str "HS256"), ("typ", .str "JWT")]

/-- `JwtService.generateToken`, with `now` the seconds clock
`Math.floor(Date.now() / 1000)` sampled at the call. -/
def generateToken (hmacB64 : String → String → String)
    (userId username role : String) (now : Int) : String :=
  let exp := now + TOKEN_EXPIRY_DAYS * 24 * 60 * 60
  let fullPayload : Json :=
    .obj [("userId", .str userId), ("username", .str username), ("role", .str role),
          ("iat", .num now), ("exp", .num exp)]
  let headerB64 := base64UrlEncode (jsonStringify headerJson)
  let payloadB64 := base64UrlEncode (jsonStringify fullPayload)
  let signature := hmacB64 (headerB64 ++ "." ++ payloadB64) JWT_SECRET
  let signatureB64 := base64UrlEncode signature
  headerB64 ++ "." ++ payloadB64 ++ "." ++ signatureB64

/-- Property access `payload.exp` on a parsed JSON value: field lookup on an
object, `undefined` (`none`) on everything else. -/
def jsLookup (v : Json) (k : String) : Option Json :=
  match v with
  | .obj fs => lookupField fs k
  | _ => none
where
  /-- First-match association lookup. -/
  lookupField : List (String × Json) → String → Option Json
    | [], _ => none
    | (k', v') :: rest, k => if k' = k then some v' else lookupField rest k

/-- JS truthiness of a JSON value (`0`, `""`, `false`, `null` are falsy). -/
def jsTruthy : Json → Bool
  | .null => false
  | .bool b => b
  | .num n => n ≠ 0
  | .str s => s ≠ ""
  | .arr _ => true
  | .obj _ => true

/-- Truthiness of a possibly-`undefined` value. -/
def jsTruthyOpt : Option Json → Bool
  | none => false
  | some v => jsTruthy v

/-- JS `ToNumber` on a string (`none` = `NaN`): whitespace-trimmed empty is
`0`, optionally signed decimal digit runs take their value, anything else is
`NaN`.  (Fractional, hex and exponent forms — never produced by the payloads
the claims quantify over — are conservatively mapped to `NaN`.) -/
def jsToNumberStr (s : String) : Option Int :=
  let cs := s.data.dropWhile (fun c => c.toNat = 32 ∨ c.toNat = 9 ∨ c.toNat = 10 ∨
    c.toNat = 13 ∨ c.toNat = 12 ∨ c.toNat = 11)
  let cs := cs.takeWhile (fun c => c.toNat ≠ 32 ∧ c.toNat ≠ 9 ∧ c.toNat ≠ 10 ∧
    c.toNat ≠ 13 ∧ c.toNat ≠ 12 ∧ c.toNat ≠ 11)
  match cs with
  | [] => some 0
  | _ =>
    let (sign, digits) : Int × List Char :=
      match cs with
      | '-' :: rest => (-1, rest)
      | '+' :: rest => (1, rest)
      | _ => (1, cs)
    if digits ≠ [] ∧ digits.all (fun c => 48 ≤ c.toNat ∧ c.toNat ≤ 57) then
      some (sign * (digits.foldl (fun a c => a * 10 + ((c.toNat : Int) - 48)) 0))
    else none

/-- JS `ToNumber` on a JSON value (`none` = `NaN`), as used by the coercing
comparison `payload.exp < now` and by `decoded.exp * 1000`.  Arrays and
objects go through `ToPrimitive`; the claims never reach those cases, and
they are approximated by their simplest instances (`[] → 0`, a one-element
array of a number → that number, otherwise `NaN`). -/
def jsToNumber : Json → Option Int
  | .null => some 0
  | .bool b => some (if b then 1 else 0)
  | .num n => some n
  | .str s => jsToNumberStr s
  | .arr [] => some 0
  | .arr [.num n] => some n
  | .arr _ => none
  | .obj _ => none

/-- The guard `payload.exp && payload.exp < now` of `verifyToken`: truthy
`exp` whose coerced number is below the clock (a `NaN` comparison is
`false`). -/
def expRejected (e : Option Json) (now : Int) : Bool :=
  jsTruthyOpt e &&
    (match e with
     | none => false
     | some v =>
       match jsToNumber v with
       | none => false
       | some n => decide (n < now))

/-- `JwtService.verifyToken`: split on `'.'`, recompute and compare the
signature, decode and parse the payload (any throw yields `null`), then
reject expired tokens. -/
def verifyToken (hmacB64 : String → String → String)
    (jsonParse : String → Option Json) (token : String) (now : Int) : Option Json :=
  match jsSplit '.' token with
  | [headerB64, payloadB64, signatureB64] =>
    let expectedSignature := hmacB64 (headerB64 ++ "." ++ payloadB64) JWT_SECRET
    let expectedSignatureB64 := base64UrlEncode expectedSignature
    if signatureB64 ≠ expectedSignatureB64 then none
    else
      match base64UrlDecode payloadB64 with
      | .error _ => none
      | .ok decoded =>
        match jsonParse decoded with
        | none => none
        | some payload =>
          if expRejected (jsLookup payload "exp") now then none else some payload
  | _ => none

/-- `JwtService.decodeToken`: same parsing as `verifyToken` but no signature
check; any throw yields `null`. -/
def decodeToken (jsonParse : String → Option Json) (token : String) : Option Json :=
  match jsSplit '.' token with
  | [_, payloadB64, _] =>
    match base64UrlDecode payloadB64 with
    | .error _ => none
    | .ok decoded => jsonParse decoded
  | _ => none

/-- `JwtService.isTokenExpired`, with `nowMs` the millisecond clock of
`new Date()`: `true` when the token does not decode or `decoded.exp` is
falsy, otherwise `new Date(decoded.exp * 1000) < new Date()` — an invalid
date (`NaN`, from a non-numeric `exp`) compares `false`. -/
def isTokenExpired (jsonParse : String → Option Json) (token : String) (nowMs : Int) : Bool :=
  match decodeToken jsonParse token with
  | none => true
  | some decoded =>
    let e := jsLookup decoded "exp"
    if ¬ jsTruthyOpt e then true
    else
      match e with
      | none => true
      | some v =>
        match jsToNumber v with
        | none => false
        | some n => decide (n * 1000 < nowMs)

/-- `JwtService.getTokenExpiration`: `none` models the `null` returns,
`some d` the returned `Date` object, where `d = none` is an *invalid* date
(`new Date(NaN)`) and `d = some ms` a date with timestamp `ms`. -/
def getTokenExpiration (jsonParse : String → Option Json) (token : String) :
    Option (Option Int) :=
  match decodeToken jsonParse token with
  | none => none
  | some decoded =>
    let e := jsLookup decoded "exp"
    if ¬ jsTruthyOpt e then none
    else
      match e with
      | none => none
      | some v => some ((jsToNumber v).map (· * 1000))

/-- `JwtService.getTimeUntilExpiration` (`none` = `NaN`): `0` when
`getTokenExpiration` returned `null`; otherwise
`Math.max(0, expiration.getTime() - now.getTime())`, where an invalid date
makes the subtraction — and `Math.max` — return `NaN`. -/
def getTimeUntilExpiration (jsonParse : String → Option Json) (token : String)
    (nowMs : Int) : Option Int :=
  match getTokenExpiration jsonParse token with
  | none => some 0
  | some none => none
  | some (some ms) => some (max 0 (ms - nowMs))

/-! ## `CryptoService` (`src/app/core/services/crypto.service.ts`)

The one external primitive, `CryptoJS.PBKDF2(password, salt, { keySize: 16,
iterations, hasher: SHA512 }).toString(CryptoJS.enc.Hex)`, is passed as
`pbkdf2Hex : String → String → Option Int → String` taking the password,
the salt *as its hex rendering* (both `hashPassword` and `verifyPassword`
move the salt through `CryptoJS.enc.Hex`: the random `WordArray` salt is
stored via `toString(Hex)` and recovered via `Hex.parse`, which round-trip
exactly on the even-length lowercase-hex strings `toString(Hex)` emits),
and the iteration count as an `Option Int` whose `none` is the `NaN` that
`parseInt` yields on non-numeric input — crypto-js's iteration loop
(`for (i = 1; i < iterations; i++)`) simply runs zero extra rounds on
`NaN`, without throwing. -/

/-- `CryptoService.PBKDF2_ITERATIONS`. -/
def PBKDF2_ITERATIONS : Int := 100000

/-- JS `parseInt(s, 10)` (`none` = `NaN`): skip leading whitespace, read an
optional sign, then consume leading decimal digits; `NaN` when there are
none. -/
def jsParseInt (s : String) : Option Int :=
  let cs := s.data.dropWhile (fun c => c.toNat = 32 ∨ c.toNat = 9 ∨ c.toNat = 10 ∨
    c.toNat = 13 ∨ c.toNat = 12 ∨ c.toNat = 11)
  let (sign, rest) : Int × List Char :=
    match cs with
    | '-' :: r => (-1, r)
    | '+' :: r => (1, r)
    | _ => (1, cs)
  let digits := rest.takeWhile (fun c => 48 ≤ c.toNat ∧ c.toNat ≤ 57)
  match digits with
  | [] => none
  | _ => some (sign * digits.foldl (fun a c => a * 10 + ((c.toNat : Int) - 48)) 0)

/-- `CryptoService.constantTimeCompare`: length check, then OR together the
XORs of the code units (`charCodeAt`; the strings compared are ASCII hex,
where code units and code points agree) and test the accumulator against
zero. -/
def constantTimeCompare (a b : String) : Bool :=
  if a.data.length ≠ b.data.length then false
  else ((a.data.zip b.data).foldl (fun r p => r ||| (p.1.toNat ^^^ p.2.toNat)) 0) = 0

/-- `CryptoService.hashPassword`, with the freshly drawn 16-byte random salt
represented by `saltHex`, its hex rendering: the stored record is
`iterations$salt$hash`. -/
def hashPassword (pbkdf2Hex : String → String → Option Int → String)
    (saltHex password : String) : String :=
  intToString PBKDF2_ITERATIONS ++ "$" ++ saltHex ++ "$" ++
    pbkdf2Hex password saltHex (some PBKDF2_ITERATIONS)

/-- `CryptoService.verifyPassword`: split the record on `'$'`, reject unless
exactly three parts, re-derive with the embedded salt and `parseInt`-parsed
iteration count, and compare digests in constant time.  (Nothing in the
body can throw — `Hex.parse` and `PBKDF2` are total even on garbage — so
the `catch → false` branch is unreachable.) -/
def verifyPassword (pbkdf2Hex : String → String → Option Int → String)
    (password hashRecord : String) : Bool :=
  match jsSplit '$' hashRecord with
  | [iterations, saltHex, storedHashHex] =>
    constantTimeCompare (pbkdf2Hex password saltHex (jsParseInt iterations)) storedHashHex
  | _ => false

/-! ## `StorageUtil` (`src/app/shared/utils/storage.util.ts`)

`localStorage` is modelled as an association list (first match wins, as in
the browser's single-binding store).  The two external primitives are
`encrypt : String → String` for
`CryptoJS.AES.encrypt(s, ENCRYPTION_KEY).toString()` (one invocation's
outcome — its fresh random salt is fixed by the parameter) and
`decrypt : String → Except Unit String` for
`CryptoJS.AES.decrypt(s, ENCRYPTION_KEY).toString(CryptoJS.enc.Utf8)`,
whose `.error` is a thrown exception and whose `.ok` result may be the
empty string.  `JSON.parse` is again `jsonParse`, with `none` a parse
exception.  `getItem` returns the pair (result, store afterwards) since it
can delete the entry it read. -/

/-- The backing `localStorage` contents. -/
abbrev Store := List (String × String)

/-- `localStorage.getItem` (`none` = JS `null`). -/
def lookupStore (k : String) : Store → Option String
  | [] => none
  | (k', v) :: rest => if k' = k then some v else lookupStore k rest

/-- `localStorage.removeItem`. -/
def eraseStore (k : String) (st : Store) : Store :=
  st.filter (fun p => p.1 ≠ k)

/-- `localStorage.setItem`: bind `k`, dropping any previous binding. -/
def setStore (k v : String) (st : Store) : Store :=
  (k, v) :: eraseStore k st

/-- `StorageUtil.setItem`: JSON-stringify, AES-encrypt, store. -/
def setItem (encrypt : String → String) (key : String) (value : Json) (st : Store) : Store :=
  setStore key (encrypt (jsonStringify value)) st

/-- `StorageUtil.getItem`: absent or empty stored strings give `null`; a
throwing decryption gives `null` after deleting the entry (the `catch`
branch); an empty decryption result gives `null` *without* deleting (the
`if (!decrypted)` branch); a parse exception deletes and gives `null`;
otherwise the parsed value is returned. -/
def getItem (decrypt : String → Except Unit String) (jsonParse : String → Option Json)
    (key : String) (st : Store) : Option Json × Store :=
  match lookupStore key st with
  | none => (none, st)
  | some encrypted =>
    if encrypted = "" then (none, st)
    else
      match decrypt encrypted with
      | .error _ => (none, eraseStore key st)
      | .ok decrypted =>
        if decrypted = "" then (none, st)
        else
          match jsonParse decrypted with
          | none => (none, eraseStore key st)
          | some v => (some v, st)

/-- `StorageUtil.hasItem`. -/
def hasItem (key : String) (st : Store) : Bool :=
  (lookupStore key st).isSome

/-- `StorageUtil.migrateToEncrypted`: a present, non-empty value that parses
as plaintext JSON is re-saved through `setItem`; anything else is left
untouched. -/
def migrateToEncrypted (encrypt : String → String) (jsonParse : String → Option Json)
    (key : String) (st : Store) : Store :=
  match lookupStore key st with
  | none => st
  | some oldValue =>
    if oldValue = "" then st
    else
      match jsonParse oldValue with
      | some parsed => setItem encrypt key parsed st
      | none => st

/-- Membership in the base64 alphabet `crypto-js` renders MACs with
(`A–Z a–z 0–9 + / =`); every `HmacSHA256(..).toString(Base64)` output
satisfies `data.all isB64Char`. -/
def isB64Char (c : Char) : Bool :=
  (base64CharValue c).isSome || c = '='

/-- Membership in the URL-safe base64 alphabet the specification asserts for
token segments: `A–Z a–z 0–9 - _`. -/
def isUrlSafeB64Char (c : Char) : Bool :=
  decide ((65 ≤ c.toNat ∧ c.toNat ≤ 90) ∨ (97 ≤ c.toNat ∧ c.toNat ≤ 122) ∨
    (48 ≤ c.toNat ∧ c.toNat ≤ 57) ∨ c = '-' ∨ c = '_')

theorem jsSplit_three (sep : Char) (a b c : String)
    (ha : sep ∉ a.data) (hb : sep ∉ b.data) (hc : sep ∉ c.data) :
    jsSplit sep (a ++ String.mk [sep] ++ b ++ String.mk [sep] ++ c) = [a, b, c] := by
  have hmk : ∀ s : String, String.mk s.data = s := fun s => rfl
  have hdata : (a ++ String.mk [sep] ++ b ++ String.mk [sep] ++ c).data
      = a.data ++ sep :: (b.data ++ sep :: c.data) := by
    simp [String.data_append]
  unfold jsSplit
  rw [hdata, jsSplitList_append sep _ _ ha, jsSplitList_append sep _ _ hb,
    jsSplitList_of_not_mem sep _ hc]
  simp [hmk]

theorem base64UrlEncode_no_dot (s : String) (h : s.data.all isB64Char = true) :
    '.' ∉ (base64UrlEncode s).data := by
  intro hmem
  have hmem' : '.' ∈ s.data.filterMap base64UrlEncodeChar := hmem
  rw [List.mem_filterMap] at hmem'
  obtain ⟨a, ha, hfa⟩ := hmem'
  have hb : isB64Char a = true := (List.all_eq_true.mp h) a ha
  by_cases h1 : a = '+'
  · simp [base64UrlEncodeChar, h1] at hfa
  by_cases h2 : a = '/'
  · simp [base64UrlEncodeChar, h1, h2] at hfa
  by_cases h3 : a = '='
  · simp [base64UrlEncodeChar, h1, h2, h3] at hfa
  simp [base64UrlEncodeChar, h1, h2, h3] at hfa
  subst hfa
  revert hb
  decide

/-- Evaluation of `verifyToken` on a well-formed three-part token whose
third segment is exactly the recomputed signature: the signature comparison
succeeds and the result is decided by payload decoding and the expiry
check. -/
theorem verifyToken_parts (hmacB64 : String → String → String)
    (jsonParse : String → Option Json) (h p : String) (now : Int)
    (hh : '.' ∉ h.data) (hp : '.' ∉ p.data)
    (hs : '.' ∉ (base64UrlEncode (hmacB64 (h ++ "." ++ p) JWT_SECRET)).data) :
    verifyToken hmacB64 jsonParse
      (h ++ "." ++ p ++ "." ++ base64UrlEncode (hmacB64 (h ++ "." ++ p) JWT_SECRET)) now =
      (match base64UrlDecode p with
       | .error _ => none
       | .ok decoded =>
         match jsonParse decoded with
         | none => none
         | some payload =>
           if expRejected (jsLookup payload "exp") now then none else some payload) := by
  unfold verifyToken
  rw [show ("." : String) = String.mk ['.'] from rfl,
    jsSplit_three '.' _ _ _ hh hp hs]
  simp

/-- C1: the claim says `verifyToken (generateToken payload)` at the issuance
time returns the payload plus timestamps; in fact it returns `null`.
`base64UrlEncode` never base64-encodes, so the payload segment is raw JSON
text; for the payload `(userId "u", username "a", role "user")` issued at
`iat = 1700000000` that text has length `77 ≡ 1 (mod 4)` and
`base64UrlDecode` throws `Invalid base64 string`, which `verifyToken`
catches, returning `null`.  The statement holds for every MAC primitive
whose rendered output stays in the base64 alphabet — as
`HmacSHA256(..).toString(Base64)` does. -/
theorem verifyToken_of_generateToken_is_none (hmacB64 : String → String → String)
    (jsonParse : String → Option Json)
    (hhm : ∀ m k, ((hmacB64 m k).data.all isB64Char) = true) :
    verifyToken hmacB64 jsonParse
      (generateToken hmacB64 "u" "a" "user" 1700000000) 1700000000 = none := by
  have hgen : generateToken hmacB64 "u" "a" "user" 1700000000 =
      "\x7b\"alg\":\"HS256\",\"typ\":\"JWT\"\x7d" ++ "." ++
        "\x7b\"userId\":\"u\",\"username\":\"a\",\"role\":\"user\",\"iat\":1700000000,\"exp\":1700604800\x7d"
        ++ "." ++
        base64UrlEncode (hmacB64 ("\x7b\"alg\":\"HS256\",\"typ\":\"JWT\"\x7d" ++ "." ++
          "\x7b\"userId\":\"u\",\"username\":\"a\",\"role\":\"user\",\"iat\":1700000000,\"exp\":1700604800\x7d")
          JWT_SECRET) := rfl
  rw [hgen, verifyToken_parts hmacB64 jsonParse _ _ _ (by decide) (by decide)
    (base64UrlEncode_no_dot _ (hhm _ _))]
  rw [show base64UrlDecode
      "\x7b\"userId\":\"u\",\"username\":\"a\",\"role\":\"user\",\"iat\":1700000000,\"exp\":1700604800\x7d"
      = Except.error () from rfl]

/-- C1 witness: the theorem instantiated with a concrete in-alphabet MAC
function. -/
theorem verifyToken_of_generateToken_is_none_witness :
    verifyToken (fun _ _ => "A") (fun _ => none)
      (generateToken (fun _ _ => "A") "u" "a" "user" 1700000000) 1700000000 = none :=
  verifyToken_of_generateToken_is_none (fun _ _ => "A") (fun _ => none)
    (fun _ _ => (by decide : ("A".data.all isB64Char) = true))

/-- C2: the claim says every issued token is three dot-joined URL-safe-base64
segments (characters `A–Z a–z 0–9 - _` only); in fact the header segment is
the raw JSON text `{"alg":"HS256","typ":"JWT"}`, which contains `{`, `"`
and `:` — `base64UrlEncode` performs no base64 encoding.  The first conjunct
computes the three dot-segments of a concretely issued token; the second
states that its header segment is not a URL-safe-base64 string. -/
theorem generateToken_header_segment_not_urlSafe (hmacB64 : String → String → String)
    (hhm : ∀ m k, ((hmacB64 m k).data.all isB64Char) = true) :
    jsSplit '.' (generateToken hmacB64 "u1" "alice" "user" 1700000000) =
      ["\x7b\"alg\":\"HS256\",\"typ\":\"JWT\"\x7d",
       "\x7b\"userId\":\"u1\",\"username\":\"alice\",\"role\":\"user\",\"iat\":1700000000,\"exp\":1700604800\x7d",
       base64UrlEncode (hmacB64 ("\x7b\"alg\":\"HS256\",\"typ\":\"JWT\"\x7d" ++ "." ++
         "\x7b\"userId\":\"u1\",\"username\":\"alice\",\"role\":\"user\",\"iat\":1700000000,\"exp\":1700604800\x7d")
         JWT_SECRET)] ∧
    ("\x7b\"alg\":\"HS256\",\"typ\":\"JWT\"\x7d".data.all isUrlSafeB64Char) = false := by
  refine ⟨?_, by decide⟩
  have hgen : generateToken hmacB64 "u1" "alice" "user" 1700000000 =
      "\x7b\"alg\":\"HS256\",\"typ\":\"JWT\"\x7d" ++ "." ++
        "\x7b\"userId\":\"u1\",\"username\":\"alice\",\"role\":\"user\",\"iat\":1700000000,\"exp\":1700604800\x7d"
        ++ "." ++
        base64UrlEncode (hmacB64 ("\x7b\"alg\":\"HS256\",\"typ\":\"JWT\"\x7d" ++ "." ++
          "\x7b\"userId\":\"u1\",\"username\":\"alice\",\"role\":\"user\",\"iat\":1700000000,\"exp\":1700604800\x7d")
          JWT_SECRET) := rfl
  rw [hgen, show ("." : String) = String.mk ['.'] from rfl,
    jsSplit_three '.' _ _ _ (by decide) (by decide)
      (base64UrlEncode_no_dot _ (hhm _ _))]

/-- C2 witness: the theorem instantiated with a concrete in-alphabet MAC
function. -/
theorem generateToken_header_segment_not_urlSafe_witness :
    jsSplit '.' (generateToken (fun _ _ => "B") "u1" "alice" "user" 1700000000) =
      ["\x7b\"alg\":\"HS256\",\"typ\":\"JWT\"\x7d",
       "\x7b\"userId\":\"u1\",\"username\":\"alice\",\"role\":\"user\",\"iat\":1700000000,\"exp\":1700604800\x7d",
       base64UrlEncode ((fun (_ _ : String) => "B")
         ("\x7b\"alg\":\"HS256\",\"typ\":\"JWT\"\x7d" ++ "." ++
           "\x7b\"userId\":\"u1\",\"username\":\"alice\",\"role\":\"user\",\"iat\":1700000000,\"exp\":1700604800\x7d")
         JWT_SECRET)] ∧
    ("\x7b\"alg\":\"HS256\",\"typ\":\"JWT\"\x7d".data.all isUrlSafeB64Char) = false :=
  generateToken_header_segment_not_urlSafe (fun _ _ => "B")
    (fun _ _ => (by decide : ("B".data.all isB64Char) = true))

/-- C6: a three-part token whose signature segment is exactly the recomputed
MAC and whose payload decodes and parses to a JSON value with no `exp`
field, or with `exp = 0`, is accepted by `verifyToken` at every time `now`:
the guard `payload.exp && payload.exp < now` is skipped because `undefined`
and `0` are falsy. -/
theorem verifyToken_accepts_missing_or_zero_exp (hmacB64 : String → String → String)
    (jsonParse : String → Option Json) (h p d : String) (v : Json) (now : Int)
    (hh : '.' ∉ h.data) (hp : '.' ∉ p.data)
    (hs : '.' ∉ (base64UrlEncode (hmacB64 (h ++ "." ++ p) JWT_SECRET)).data)
    (hdec : base64UrlDecode p = .ok d)
    (hparse : jsonParse d = some v)
    (hexp : jsLookup v "exp" = none ∨ jsLookup v "exp" = some (Json.num 0)) :
    verifyToken hmacB64 jsonParse
      (h ++ "." ++ p ++ "." ++ base64UrlEncode (hmacB64 (h ++ "." ++ p) JWT_SECRET)) now
      = some v := by
  rw [verifyToken_parts hmacB64 jsonParse h p now hh hp hs, hdec]
  show (match jsonParse d with
        | none => none
        | some payload =>
          if expRejected (jsLookup payload "exp") now = true then none else some payload)
      = some v
  rw [hparse]
  show (if expRejected (jsLookup v "exp") now = true then none else some v) = some v
  rcases hexp with he | he <;> rw [he] <;> rfl

/-- C6 witness: the token `x.e30.sg` (payload segment decoding to `{}`, no
`exp` field) is accepted at the far-future time `99999999999`. -/
theorem verifyToken_accepts_missing_or_zero_exp_witness :
    verifyToken (fun _ _ => "sg")
      (fun s => if s = "\x7b\x7d" then some (Json.obj []) else none)
      ("x" ++ "." ++ "e30" ++ "." ++
        base64UrlEncode ((fun (_ _ : String) => "sg") ("x" ++ "." ++ "e30") JWT_SECRET))
      99999999999 = some (Json.obj []) :=
  verifyToken_accepts_missing_or_zero_exp (fun _ _ => "sg")
    (fun s => if s = "\x7b\x7d" then some (Json.obj []) else none)
    "x" "e30" "\x7b\x7d" (Json.obj []) 99999999999
    (by decide) (by decide) (by decide) rfl rfl (Or.inl rfl)

/-- C9: the claim says `getTimeUntilExpiration` always returns a
non-negative duration, `0` for invalid tokens (as the function's own JSDoc
also states); in fact a decodable token whose `exp` field is a non-numeric
string yields an *invalid* `Date` (truthy, so the `return 0` guard is
skipped), and `Math.max(0, NaN - now)` is `NaN` — modelled as `none`, which
is neither `0` nor any non-negative duration.  The token's payload segment
`eyJleHAiOiJhYmMifQ` is the base64url encoding of `{"exp":"abc"}`. -/
theorem getTimeUntilExpiration_nan_on_nonnumeric_exp
    (jsonParse : String → Option Json) (nowMs : Int)
    (hjp : jsonParse "\x7b\"exp\":\"abc\"\x7d" = some (Json.obj [("exp", Json.str "abc")])) :
    getTimeUntilExpiration jsonParse "x.eyJleHAiOiJhYmMifQ.y" nowMs = none := by
  have h1 : getTokenExpiration jsonParse "x.eyJleHAiOiJhYmMifQ.y" = some none := by
    unfold getTokenExpiration
    rw [show decodeToken jsonParse "x.eyJleHAiOiJhYmMifQ.y"
        = jsonParse "\x7b\"exp\":\"abc\"\x7d" from rfl, hjp]
    rfl
  unfold getTimeUntilExpiration
  rw [h1]

/-- C9 witness: the theorem instantiated with a concrete `JSON.parse`
behaving correctly on the payload text. -/
theorem getTimeUntilExpiration_nan_on_nonnumeric_exp_witness :
    getTimeUntilExpiration
      (fun s => if s = "\x7b\"exp\":\"abc\"\x7d"
        then some (Json.obj [("exp", Json.str "abc")]) else none)
      "x.eyJleHAiOiJhYmMifQ.y" 1700000000000 = none :=
  getTimeUntilExpiration_nan_on_nonnumeric_exp
    (fun s => if s = "\x7b\"exp\":\"abc\"\x7d"
      then some (Json.obj [("exp", Json.str "abc")]) else none)
    1700000000000 rfl

theorem nat_or_eq_zero (a b : Nat) (h : a ||| b = 0) : a = 0 ∧ b = 0 := by
  constructor <;>
    refine Nat.eq_of_testBit_eq (fun i => ?_) <;>
    · have h2 := congrArg (fun n => n.testBit i) h
      simp [Nat.testBit_or] at h2
      simp [h2.1, h2.2]

theorem char_eq_of_toNat_eq (a b : Char) (h : a.toNat = b.toNat) : a = b := by
  have h1 := Char.ofNat_toNat a
  have h2 := Char.ofNat_toNat b
  rw [← h1, ← h2, h]

theorem foldl_or_xor_self (l : List Char) :
    (l.zip l).foldl (fun r p => r ||| (p.1.toNat ^^^ p.2.toNat)) 0 = 0 := by
  induction l with
  | nil => rfl
  | cons c t ih =>
    simp only [List.zip_cons_cons, List.foldl_cons, Nat.xor_self, Nat.or_zero]
    exact ih

theorem constantTimeCompare_self (a : String) : constantTimeCompare a a = true := by
  unfold constantTimeCompare
  rw [if_neg (by simp)]
  simp [foldl_or_xor_self]

theorem foldl_or_eq_zero (l : List (Char × Char)) (acc : Nat)
    (h : l.foldl (fun r p => r ||| (p.1.toNat ^^^ p.2.toNat)) acc = 0) :
    acc = 0 ∧ ∀ p ∈ l, p.1 = p.2 := by
  induction l generalizing acc with
  | nil => exact ⟨h, by simp⟩
  | cons q t ih =>
    simp only [List.foldl_cons] at h
    obtain ⟨hacc, hall⟩ := ih _ h
    have h1 := nat_or_eq_zero _ _ hacc
    refine ⟨h1.1, ?_⟩
    intro p hp
    rcases List.mem_cons.mp hp with rfl | hmem
    · exact char_eq_of_toNat_eq _ _ (Nat.xor_eq_zero.mp h1.2)
    · exact hall p hmem

theorem eq_of_zip_eq (l1 l2 : List Char) (hlen : l1.length = l2.length)
    (h : ∀ p ∈ l1.zip l2, p.1 = p.2) : l1 = l2 := by
  induction l1 generalizing l2 with
  | nil => cases l2 with | nil => rfl | cons _ _ => simp at hlen
  | cons c t ih =>
    cases l2 with
    | nil => simp at hlen
    | cons c2 t2 =>
      have hc : c = c2 := h (c, c2) (by simp [List.zip_cons_cons])
      have ht : t = t2 :=
        ih t2 (by simpa using hlen) (fun p hp => h p (by simp [List.zip_cons_cons, hp]))
      rw [hc, ht]

/-- Soundness of the constant-time comparison: `true` only on equal
strings. -/
theorem constantTimeCompare_eq (a b : String) (h : constantTimeCompare a b = true) :
    a = b := by
  unfold constantTimeCompare at h
  by_cases hlen : a.data.length ≠ b.data.length
  · rw [if_pos hlen] at h
    exact absurd h (by simp)
  · rw [if_neg hlen] at h
    push_neg at hlen
    have h0 : (a.data.zip b.data).foldl (fun r p => r ||| (p.1.toNat ^^^ p.2.toNat)) 0 = 0 :=
      of_decide_eq_true h
    exact String.ext (eq_of_zip_eq _ _ hlen (foldl_or_eq_zero _ _ h0).2)

/-- Shared evaluation lemma: verifying a freshly produced hash record
succeeds (the record splits into its three fields, `parseInt` recovers the
iteration count, and the digests agree). -/
theorem verifyPassword_hashPassword_eq (pbkdf2Hex : String → String → Option Int → String)
    (saltHex password : String)
    (hsalt : '$' ∉ saltHex.data)
    (hdig : '$' ∉ (pbkdf2Hex password saltHex (some PBKDF2_ITERATIONS)).data) :
    verifyPassword pbkdf2Hex password (hashPassword pbkdf2Hex saltHex password) = true := by
  unfold verifyPassword hashPassword
  rw [show intToString PBKDF2_ITERATIONS = "100000" from rfl,
    show ("$" : String) = String.mk ['$'] from rfl,
    jsSplit_three '$' "100000" saltHex _ (by decide) hsalt hdig]
  show constantTimeCompare (pbkdf2Hex password saltHex (jsParseInt "100000"))
    (pbkdf2Hex password saltHex (some PBKDF2_ITERATIONS)) = true
  rw [show jsParseInt "100000" = some PBKDF2_ITERATIONS from rfl]
  exact constantTimeCompare_self _

/-- C4: `verifyPassword p (hashPassword p)` is `true` for every password and
every random salt draw (represented by its hex rendering): the record's
three `'$'`-fields are recovered, `parseInt("100000")` re-yields the
iteration count, and the recomputed digest equals the stored one.  The two
hypotheses hold of the real primitives: hex renderings of the salt and
digest contain no `'$'`. -/
theorem verifyPassword_of_hashPassword (pbkdf2Hex : String → String → Option Int → String)
    (saltHex password : String)
    (hsalt : '$' ∉ saltHex.data)
    (hdig : '$' ∉ (pbkdf2Hex password saltHex (some PBKDF2_ITERATIONS)).data) :
    verifyPassword pbkdf2Hex password (hashPassword pbkdf2Hex saltHex password) = true :=
  verifyPassword_hashPassword_eq pbkdf2Hex saltHex password hsalt hdig

/-- C4 witness: concrete salt, password and derivation function. -/
theorem verifyPassword_of_hashPassword_witness :
    verifyPassword (fun _ _ _ => "dd") "pw"
      (hashPassword (fun _ _ _ => "dd") "ab" "pw") = true :=
  verifyPassword_of_hashPassword (fun _ _ _ => "dd") "ab" "pw"
    (by decide) (by decide)

/-- C8: two `hashPassword` calls that draw distinct salts return distinct
records, and each record verifies against the plaintext. -/
theorem hashPassword_distinct_salts (pbkdf2Hex : String → String → Option Int → String)
    (s1 s2 password : String) (hne : s1 ≠ s2)
    (h1 : '$' ∉ s1.data) (h2 : '$' ∉ s2.data)
    (hd1 : '$' ∉ (pbkdf2Hex password s1 (some PBKDF2_ITERATIONS)).data)
    (hd2 : '$' ∉ (pbkdf2Hex password s2 (some PBKDF2_ITERATIONS)).data) :
    hashPassword pbkdf2Hex s1 password ≠ hashPassword pbkdf2Hex s2 password ∧
    verifyPassword pbkdf2Hex password (hashPassword pbkdf2Hex s1 password) = true ∧
    verifyPassword pbkdf2Hex password (hashPassword pbkdf2Hex s2 password) = true := by
  refine ⟨?_, verifyPassword_hashPassword_eq _ _ _ h1 hd1,
    verifyPassword_hashPassword_eq _ _ _ h2 hd2⟩
  intro heq
  have hs := congrArg (jsSplit '$') heq
  unfold hashPassword at hs
  rw [show intToString PBKDF2_ITERATIONS = "100000" from rfl,
    show ("$" : String) = String.mk ['$'] from rfl,
    jsSplit_three '$' "100000" s1 _ (by decide) h1 hd1,
    jsSplit_three '$' "100000" s2 _ (by decide) h2 hd2] at hs
  simp at hs
  exact hne hs.1

/-- C8 witness: distinct concrete salts. -/
theorem hashPassword_distinct_salts_witness :
    hashPassword (fun _ _ _ => "dd") "ab" "pw" ≠ hashPassword (fun _ _ _ => "dd") "cd" "pw" ∧
    verifyPassword (fun _ _ _ => "dd") "pw" (hashPassword (fun _ _ _ => "dd") "ab" "pw") = true ∧
    verifyPassword (fun _ _ _ => "dd") "pw" (hashPassword (fun _ _ _ => "dd") "cd" "pw") = true :=
  hashPassword_distinct_salts (fun _ _ _ => "dd") "ab" "cd" "pw"
    (by decide) (by decide) (by decide) (by decide) (by decide)

/-- C7 counterexample: the claim says `verifyPassword` returns `false` for
every malformed record, including non-numeric iteration counts.  The record
`x$$aa` has three `'$'`-fields with the non-numeric iteration count `"x"`
(`parseInt` yields `NaN`) and empty salt, yet `verifyPassword` returns
`true` whenever its digest field equals the digest PBKDF2 recomputes with
those garbage parameters — crypto-js's PBKDF2 runs (one round) on a `NaN`
iteration count instead of throwing.  Here the abstract derivation function
is instantiated at the value the real one returns for these arguments. -/
theorem verifyPassword_malformed_record_true :
    jsParseInt "x" = none ∧
    jsSplit '$' "x$$aa" = ["x", "", "aa"] ∧
    verifyPassword (fun _ _ _ => "aa") "p" "x$$aa" = true := by
  refine ⟨rfl, by decide, by decide⟩

/-- C7 amended: `verifyPassword` never throws (it is total) and returns
`false` for every record that does not split into exactly three
`'$'`-fields, and for every three-field record whose stored digest differs
from the digest recomputed with the record's (possibly garbage) salt and
iteration fields.  A malformed record can only verify if its digest field
exactly matches that recomputation. -/
theorem verifyPassword_false_unless_digest_matches
    (pbkdf2Hex : String → String → Option Int → String) (password hashRecord : String)
    (hyp : (jsSplit '$' hashRecord).length ≠ 3 ∨
      ∃ i s d, jsSplit '$' hashRecord = [i, s, d] ∧
        pbkdf2Hex password s (jsParseInt i) ≠ d) :
    verifyPassword pbkdf2Hex password hashRecord = false := by
  unfold verifyPassword
  rcases hyp with hlen | ⟨i, s, d, hsplit, hne⟩
  · rcases hl : jsSplit '$' hashRecord with _ | ⟨a, _ | ⟨b, _ | ⟨c, _ | ⟨e, t⟩⟩⟩⟩
    · rfl
    · rfl
    · rfl
    · rw [hl] at hlen
      simp at hlen
    · rfl
  · rw [hsplit]
    show constantTimeCompare (pbkdf2Hex password s (jsParseInt i)) d = false
    cases hc : constantTimeCompare (pbkdf2Hex password s (jsParseInt i)) d
    · rfl
    · exact absurd (constantTimeCompare_eq _ _ hc) hne

/-- C7 amended witness: a one-field record is rejected. -/
theorem verifyPassword_false_unless_digest_matches_witness :
    verifyPassword (fun _ _ _ => "zz") "p" "onlyonepart" = false :=
  verifyPassword_false_unless_digest_matches (fun _ _ _ => "zz") "p" "onlyonepart"
    (Or.inl (by decide))

theorem lookupStore_erase_self (k : String) (st : Store) :
    lookupStore k (eraseStore k st) = none := by
  induction st with
  | nil => rfl
  | cons p t ih =>
    obtain ⟨k', v⟩ := p
    by_cases hp : k' = k
    · simpa [eraseStore, List.filter_cons, hp] using ih
    · simp [eraseStore, List.filter_cons, hp, lookupStore] at ih ⊢
      exact ih

theorem lookupStore_setStore_self (k v : String) (st : Store) :
    lookupStore k (setStore k v st) = some v := by
  simp [setStore, lookupStore]

/-- C5: reading a key immediately after storing a JSON value under it
returns that exact value (and leaves the store as `setItem` left it).  The
hypotheses are the library contracts at the instance used: the ciphertext
is non-empty, decryption inverts encryption, and `JSON.parse` inverts
`JSON.stringify` on this value. -/
theorem getItem_after_setItem (encrypt : String → String)
    (decrypt : String → Except Unit String) (jsonParse : String → Option Json)
    (key : String) (v : Json) (st : Store)
    (hne : encrypt (jsonStringify v) ≠ "")
    (hdec : decrypt (encrypt (jsonStringify v)) = .ok (jsonStringify v))
    (hjson : jsonParse (jsonStringify v) = some v) :
    getItem decrypt jsonParse key (setItem encrypt key v st)
      = (some v, setItem encrypt key v st) := by
  unfold getItem setItem
  rw [lookupStore_setStore_self]
  show (if encrypt (jsonStringify v) = "" then _ else _) = _
  rw [if_neg hne, hdec]
  show (if jsonStringify v = "" then _ else _) = _
  rw [if_neg (jsonStringify_ne_empty v), hjson]

/-- C5 witness: a nested value (object containing an array of a number, a
boolean and null, and a nested object with a string) round-trips through a
concrete invertible cipher and a concrete parse function. -/
theorem getItem_after_setItem_witness :
    getItem (fun s => .ok (s.drop 2))
      (fun s => if s = jsonStringify (Json.obj
          [("a", Json.arr [Json.num 1, Json.bool true, Json.null]),
           ("b", Json.obj [("c", Json.str "x")])])
        then some (Json.obj
          [("a", Json.arr [Json.num 1, Json.bool true, Json.null]),
           ("b", Json.obj [("c", Json.str "x")])]) else none)
      "k"
      (setItem (fun s => "U2" ++ s) "k"
        (Json.obj [("a", Json.arr [Json.num 1, Json.bool true, Json.null]),
                   ("b", Json.obj [("c", Json.str "x")])]) [])
      = (some (Json.obj [("a", Json.arr [Json.num 1, Json.bool true, Json.null]),
                         ("b", Json.obj [("c", Json.str "x")])]),
         setItem (fun s => "U2" ++ s) "k"
           (Json.obj [("a", Json.arr [Json.num 1, Json.bool true, Json.null]),
                      ("b", Json.obj [("c", Json.str "x")])]) []) :=
  getItem_after_setItem (fun s => "U2" ++ s) (fun s => .ok (s.drop 2))
    (fun s => if s = jsonStringify (Json.obj
        [("a", Json.arr [Json.num 1, Json.bool true, Json.null]),
         ("b", Json.obj [("c", Json.str "x")])])
      then some (Json.obj
        [("a", Json.arr [Json.num 1, Json.bool true, Json.null]),
         ("b", Json.obj [("c", Json.str "x")])]) else none)
    "k"
    (Json.obj [("a", Json.arr [Json.num 1, Json.bool true, Json.null]),
               ("b", Json.obj [("c", Json.str "x")])]) []
    (by decide) rfl rfl

/-- C3 counterexample: the claim says every stored string that cannot be
decrypted-and-parsed is *deleted* by `get`, leaving `has(k) = false`.  The
stored string `U2FsdGVkX18AAAAAAAAAAA==` (base64 of the OpenSSL header
`Salted__` plus an 8-byte salt and *zero* ciphertext blocks — a truncated,
i.e. corrupted, ciphertext) makes `CryptoJS.AES.decrypt(..).toString(Utf8)`
return the empty string without throwing: there are no blocks to decrypt,
unpadding the empty result subtracts nothing, and stringifying zero bytes
is `""`.  The concrete `decrypt` below is that behaviour.  `getItem` then
takes its `if (!decrypted)` branch, which returns `null` but does NOT
delete, so `has` still answers `true`. -/
theorem getItem_empty_decryption_entry_survives :
    getItem (fun _ => .ok "") (fun _ => none) "token"
        [("token", "U2FsdGVkX18AAAAAAAAAAA==")]
      = (none, [("token", "U2FsdGVkX18AAAAAAAAAAA==")]) ∧
    hasItem "token"
      (getItem (fun _ => .ok "") (fun _ => none) "token"
        [("token", "U2FsdGVkX18AAAAAAAAAAA==")]).2 = true :=
  ⟨rfl, rfl⟩

/-- C3 amended: `get` on an undecipherable entry always returns `null`;
it deletes the entry (after which `has(k)` is `false`) exactly when the
decryption or the parse *throws*; when decryption succeeds with the empty
string (e.g. a ciphertext truncated below one block, or a short legacy
plaintext) the entry is left in place. -/
theorem getItem_self_healing_cases (decrypt : String → Except Unit String)
    (jsonParse : String → Option Json) (key : String) (st : Store) (e : String)
    (hl : lookupStore key st = some e) (hne : e ≠ "") :
    (decrypt e = .error () →
      getItem decrypt jsonParse key st = (none, eraseStore key st) ∧
      hasItem key (eraseStore key st) = false) ∧
    (∀ d, decrypt e = .ok d → d ≠ "" → jsonParse d = none →
      getItem decrypt jsonParse key st = (none, eraseStore key st) ∧
      hasItem key (eraseStore key st) = false) ∧
    (decrypt e = .ok "" → getItem decrypt jsonParse key st = (none, st)) := by
  have hhas : hasItem key (eraseStore key st) = false := by
    simp [hasItem, lookupStore_erase_self]
  refine ⟨fun hdec => ⟨?_, hhas⟩, fun d hdec hd hjp => ⟨?_, hhas⟩, fun hdec => ?_⟩
  · unfold getItem
    rw [hl]
    show (if e = "" then _ else _) = _
    rw [if_neg hne, hdec]
  · unfold getItem
    rw [hl]
    show (if e = "" then _ else _) = _
    rw [if_neg hne, hdec]
    show (if d = "" then _ else _) = _
    rw [if_neg hd, hjp]
  · unfold getItem
    rw [hl]
    show (if e = "" then _ else _) = _
    rw [if_neg hne, hdec]
    simp

/-- C3 amended witness: a throwing decryption on a concrete entry. -/
theorem getItem_self_healing_cases_witness :
    ((fun _ => (.error () : Except Unit String)) "x" = .error () →
      getItem (fun _ => .error ()) (fun _ => none) "k" [("k", "x")]
          = (none, eraseStore "k" [("k", "x")]) ∧
      hasItem "k" (eraseStore "k" [("k", "x")]) = false) ∧
    (∀ d, (fun _ => (.error () : Except Unit String)) "x" = .ok d → d ≠ "" →
      (fun _ => (none : Option Json)) d = none →
      getItem (fun _ => .error ()) (fun _ => none) "k" [("k", "x")]
          = (none, eraseStore "k" [("k", "x")]) ∧
      hasItem "k" (eraseStore "k" [("k", "x")]) = false) ∧
    ((fun _ => (.error () : Except Unit String)) "x" = .ok "" →
      getItem (fun _ => .error ()) (fun _ => none) "k" [("k", "x")]
          = (none, [("k", "x")])) :=
  getItem_self_healing_cases (fun _ => .error ()) (fun _ => none) "k"
    [("k", "x")] "x" rfl (by decide)

/-- C10: running `migrateToEncrypted` twice leaves the store exactly as one
run left it.  The hypothesis is the library contract that ciphertexts never
parse as JSON (crypto-js ciphertext strings are OpenSSL-salted base64
starting `U2FsdGVkX1`, which no JSON value's text can start with). -/
theorem migrateToEncrypted_idempotent (encrypt : String → String)
    (jsonParse : String → Option Json) (key : String) (st : Store)
    (hEncNotJson : ∀ s, jsonParse (encrypt s) = none) :
    migrateToEncrypted encrypt jsonParse key
        (migrateToEncrypted encrypt jsonParse key st)
      = migrateToEncrypted encrypt jsonParse key st := by
  rcases hl : lookupStore key st with _ | oldValue
  · have h1 : migrateToEncrypted encrypt jsonParse key st = st := by
      unfold migrateToEncrypted; rw [hl]
    rw [h1, h1]
  · by_cases hemp : oldValue = ""
    · have h1 : migrateToEncrypted encrypt jsonParse key st = st := by
        unfold migrateToEncrypted; rw [hl]; simp [hemp]
      rw [h1, h1]
    · rcases hp : jsonParse oldValue with _ | parsed
      · have h1 : migrateToEncrypted encrypt jsonParse key st = st := by
          unfold migrateToEncrypted; rw [hl]; simp [hemp, hp]
        rw [h1, h1]
      · have h1 : migrateToEncrypted encrypt jsonParse key st
            = setItem encrypt key parsed st := by
          unfold migrateToEncrypted; rw [hl]; simp [hemp, hp]
        rw [h1]
        unfold migrateToEncrypted setItem
        rw [lookupStore_setStore_self]
        by_cases hE : encrypt (jsonStringify parsed) = ""
        · simp [hE]
        · simp [hE, hEncNotJson]

/-- C10 witness: a store holding legacy plaintext JSON `42` under the key,
with a concrete cipher whose outputs never parse. -/
theorem migrateToEncrypted_idempotent_witness :
    migrateToEncrypted (fun _ => "U2") (fun s => if s = "42" then some (Json.num 42) else none)
        "k" (migrateToEncrypted (fun _ => "U2")
          (fun s => if s = "42" then some (Json.num 42) else none) "k" [("k", "42")])
      = migrateToEncrypted (fun _ => "U2")
          (fun s => if s = "42" then some (Json.num 42) else none) "k" [("k", "42")] :=
  migrateToEncrypted_idempotent (fun _ => "U2")
    (fun s => if s = "42" then some (Json.num 42) else none) "k" [("k", "42")]
    (fun _ => rfl)

end Atonix
